import Mathlib

/-!
# Offline sync queue of the Starlight Voyager app — shallow embedding

This file embeds the offline-operation queue and synchronization flow of the
repository (functions `queueOfflineOperation` and `processSyncQueue` in
`supabasecliente.js`, class `SyncService` in the sync-service module, the
`sync_queue` table of `supabase-schema.sql`, and the offline write path
`AnnotationServiceV2.createAnnotation` together with
`ImageService.getOrCreateImage`) and proves the specified properties of the
queue-item lifecycle.

Modelling conventions, stated once here and referenced from the definitions:

* Machine state is passed explicitly: `Store` is the remote backing store
  (named tables of rows), `DB` bundles the store with the `sync_queue` table,
  and `Env` carries the ambient facts one call observes (authenticated user,
  connectivity, current time, and which replay calls suffer a transport
  failure).
* Timestamps are naturals; `record_data` payloads are abstracted to a
  primary-key field plus one opaque payload value, which is all the queue
  logic inspects (`record_data.id`).
* A PostgREST-style call returns a result object carrying an optional error;
  it does not raise.  The replay loop of `processSyncQueue` never reads the
  returned error object, so a returned error is discarded there, exactly as
  in the source.  The failure channel that the loop's `try/catch` does
  observe — a rejected await, e.g. a transport failure — is modelled from the
  spec (§7, "remote operation failure during replay") by the oracle
  `Env.netFail`.
* The `sync_queue` bookkeeping itself (the fetch of pending rows and the
  per-item status updates) is modelled from the spec as the reliable local
  outbox (§3, "representation of a single outbox record"): those calls are
  state updates that do not fail.
-/

namespace StarlightSync

/-- Operation kind of a queued mutation: column `sync_queue.operation`,
`CHECK (operation IN ('insert', 'update', 'delete'))`. -/
inductive Operation where
  | insert
  | update
  | delete
deriving DecidableEq

/-- Lifecycle status of a queue item: column `sync_queue.status`,
`CHECK (status IN ('pending', 'synced', 'failed'))`. -/
inductive Status where
  | pending
  | synced
  | failed
deriving DecidableEq

/-- The serialized record payload (`sync_queue.record_data`).  `id` is the
optional primary key carried inside the payload (`record_data.id`, read by
the update/delete replay); `payload` abstracts every other column. -/
structure RecordData where
  id : Option Nat
  payload : Nat
deriving DecidableEq

/-- One row of a backing-store table; `rid` is the primary key. -/
structure Rowd where
  rid : Nat
  payload : Nat
deriving DecidableEq

/-- The remote backing store: named tables of rows, plus the generator used
for server-assigned primary keys. -/
structure Store where
  tables : List (String × List Rowd)
  nextRowId : Nat
deriving DecidableEq

/-- A single outbox record: table `sync_queue` of `supabase-schema.sql`.
Column defaults there are `status 'pending'`, `attempts 0`,
`created_at NOW()`. -/
structure QueueItem where
  id : Nat
  user_id : Nat
  operation : Operation
  table_name : String
  record_data : RecordData
  status : Status
  error_message : Option String
  attempts : Nat
  created_at : Nat
  synced_at : Option Nat
deriving DecidableEq

/-- Full persistent state: the backing store, the `sync_queue` table, and the
generator for queue-item primary keys. -/
structure DB where
  store : Store
  queue : List QueueItem
  nextQueueId : Nat
deriving DecidableEq

/-- The ambient environment a call observes: `auth` is the signed-in user id
(`supabase.auth.getUser()`), `online` the connectivity flag (`NetInfo` /
`SyncService.isOnline`), `now` the current time (`new Date()`).

`netFail` is modelled from the spec (§7, failure kind 3: "remote operation
failure during replay — recorded per-item"): `netFail k` tells whether the
replay call of the k-th fetched item in a drain fails, and with which
detail message.  The source reaches its `catch` block exactly on such a
rejected await; the oracle makes that channel explicit. -/
structure Env where
  auth : Option Nat
  online : Bool
  now : Nat
  netFail : Nat → Option String

/-- Rows of the named table (empty when the table is absent). -/
def getTable (st : Store) (name : String) : List Rowd :=
  match st.tables.find? (fun p => p.1 = name) with
  | some p => p.2
  | none => []

/-- Replace the rows of the named table, creating it when absent. -/
def setTable (st : Store) (name : String) (rows : List Rowd) : Store :=
  if (st.tables.find? (fun p => p.1 = name)).isSome then
    { st with tables := st.tables.map (fun p => if p.1 = name then (name, rows) else p) }
  else
    { st with tables := st.tables ++ [(name, rows)] }

/-- PostgREST semantics of one replayed call against the backing store, as
issued by the loop body of `processSyncQueue`:

* `insert` posts the record; a payload-supplied key that already exists
  violates the unique constraint and returns an error, otherwise the row is
  appended (with a server-assigned key when the payload carries none);
* `update … .eq('id', record_data.id)` updates the rows whose key equals
  `record_data.id` — matching zero rows is a success, not an error — and a
  missing `record_data.id` fails to parse as a key and returns an error;
* `delete … .eq('id', record_data.id)` likewise deletes the matching rows,
  zero matches being a success.

The second component is the error the call *returns*; the caller in
`processSyncQueue` discards it. -/
def applyOp (op : Operation) (tbl : String) (rd : RecordData) (st : Store) :
    Store × Option String :=
  match op with
  | .insert =>
    let rows := getTable st tbl
    match rd.id with
    | some i =>
      if rows.any (fun r => r.rid = i) then
        (st, some "duplicate key value violates unique constraint")
      else
        (setTable st tbl (rows ++ [⟨i, rd.payload⟩]), none)
    | none =>
      (setTable { st with nextRowId := st.nextRowId + 1 } tbl
        (rows ++ [⟨st.nextRowId, rd.payload⟩]), none)
  | .update =>
    match rd.id with
    | some i =>
      (setTable st tbl ((getTable st tbl).map
        (fun r => if r.rid = i then { r with payload := rd.payload } else r)), none)
    | none => (st, some "invalid input syntax for type uuid")
  | .delete =>
    match rd.id with
    | some i =>
      (setTable st tbl ((getTable st tbl).filter (fun r => ¬ r.rid = i)), none)
    | none => (st, some "invalid input syntax for type uuid")

/-- `queueOfflineOperation(operation, tableName, recordData)` of
`supabasecliente.js`: with no signed-in user it throws
`'User not authenticated'`; otherwise it inserts a `sync_queue` row for that
user, which the schema defaults complete to `status 'pending'`, `attempts 0`,
`created_at` the current time.  The returned `DB` is unchanged on the error
branch. -/
def queueOfflineOperation (env : Env) (op : Operation) (tbl : String)
    (rd : RecordData) (db : DB) : DB × Except String QueueItem :=
  match env.auth with
  | none => (db, .error "User not authenticated")
  | some u =>
    let item : QueueItem :=
      { id := db.nextQueueId
        user_id := u
        operation := op
        table_name := tbl
        record_data := rd
        status := .pending
        error_message := none
        attempts := 0
        created_at := env.now
        synced_at := none }
    ({ db with queue := db.queue ++ [item], nextQueueId := db.nextQueueId + 1 },
      .ok item)

/-- The ORDER BY key of the drain's fetch: created no later than. -/
def createdLe (a b : QueueItem) : Prop := a.created_at ≤ b.created_at

instance : DecidableRel createdLe := fun a b => Nat.decLe a.created_at b.created_at

instance : IsTotal QueueItem createdLe := ⟨fun a b => Nat.le_total a.created_at b.created_at⟩

instance : IsTrans QueueItem createdLe := ⟨fun _ _ _ h1 h2 => Nat.le_trans h1 h2⟩

/-- The fetch at the head of `processSyncQueue`:
`select * from sync_queue where user_id = u and status = 'pending'
order by created_at ascending`. -/
def fetchPending (u : Nat) (q : List QueueItem) : List QueueItem :=
  List.insertionSort createdLe
    (q.filter fun it => decide (it.user_id = u ∧ it.status = Status.pending))

/-- The per-item status update the drain writes back to `sync_queue`, keyed
on the fetched snapshot `snap`: on success `status = 'synced'`,
`synced_at = now`; on a replay failure with detail `msg`,
`status = 'failed'`, `error_message = msg`, `attempts = snap.attempts + 1`
(the snapshot's counter plus one, as in `item.attempts + 1`). -/
def markItem (now : Nat) (snap : QueueItem) (fail : Option String)
    (j : QueueItem) : QueueItem :=
  if j.id = snap.id then
    match fail with
    | none => { j with status := .synced, synced_at := some now }
    | some msg =>
      { j with status := .failed, error_message := some msg,
               attempts := snap.attempts + 1 }
  else j

/-- Everything a drain produces: final store and queue, the returned counts,
and the ids of the replayed items in replay order. -/
structure DrainOut where
  store : Store
  queue : List QueueItem
  processed : Nat
  failed : Nat
  log : List Nat
deriving DecidableEq

/-- The `for (const item of pending)` loop of `processSyncQueue`: for each
fetched item in order, replay its operation against the store; when the
replay call goes through (`fail 0 = none`) the item is marked synced — the
error object the call returned is not consulted, exactly as in the source —
and when the await fails the `catch` marks it failed.  The oracle is shifted
by one for the tail, so `fail k` governs the k-th item of `items`. -/
def drainLoop (now : Nat) (fail : Nat → Option String) :
    List QueueItem → Store → List QueueItem → DrainOut
  | [], st, q => ⟨st, q, 0, 0, []⟩
  | it :: rest, st, q =>
    match fail 0 with
    | none =>
      let st' := (applyOp it.operation it.table_name it.record_data st).1
      let q' := q.map (markItem now it none)
      let r := drainLoop now (fun n => fail (n + 1)) rest st' q'
      ⟨r.store, r.queue, r.processed + 1, r.failed, it.id :: r.log⟩
    | some msg =>
      let q' := q.map (markItem now it (some msg))
      let r := drainLoop now (fun n => fail (n + 1)) rest st q'
      ⟨r.store, r.queue, r.processed, r.failed + 1, it.id :: r.log⟩

/-- The returned counts of a drain. -/
structure DrainResult where
  processed : Nat
  failed : Nat
deriving DecidableEq

/-- `processSyncQueue()` of `supabasecliente.js`, with its replay log kept:
with no signed-in user it returns `{ processed: 0, failed: 0 }` at once;
otherwise it fetches the user's pending items ordered by creation time and
runs the replay loop over them. -/
def processSyncQueueFull (env : Env) (db : DB) : DB × DrainResult × List Nat :=
  match env.auth with
  | none => (db, ⟨0, 0⟩, [])
  | some u =>
    let r := drainLoop env.now env.netFail (fetchPending u db.queue) db.store db.queue
    ({ db with store := r.store, queue := r.queue }, ⟨r.processed, r.failed⟩, r.log)

/-- `processSyncQueue()` as its callers see it: state and counts. -/
def processSyncQueue (env : Env) (db : DB) : DB × DrainResult :=
  ((processSyncQueueFull env db).1, (processSyncQueueFull env db).2.1)

/-- `SyncService.syncNow()`: when offline it returns
`{ processed: 0, failed: 0 }` without calling `processSyncQueue`; when online
it drains. -/
def syncNow (env : Env) (db : DB) : DB × DrainResult :=
  if env.online then processSyncQueue env db else (db, ⟨0, 0⟩)

/-- The queue update inside `SyncService.retryFailedItem(itemId)`:
`update sync_queue set status = 'pending', attempts = 0,
error_message = null where id = itemId`.  Note the filter is on `id` alone:
the current status of the row is not consulted. -/
def resetItem (itemId : Nat) (db : DB) : DB :=
  { db with queue := db.queue.map (fun j =>
      if j.id = itemId then
        { j with status := .pending, attempts := 0, error_message := none }
      else j) }

/-- `SyncService.retryFailedItem(itemId)`: reset the row, then trigger an
immediate sync. -/
def retryFailedItem (env : Env) (itemId : Nat) (db : DB) : DB :=
  (syncNow env (resetItem itemId db)).1

/-- `SyncService.clearSyncedItems()`: with no signed-in user it returns
without touching the queue; otherwise
`delete from sync_queue where user_id = u and status = 'synced'`. -/
def clearSyncedItems (env : Env) (db : DB) : DB :=
  match env.auth with
  | none => db
  | some u =>
    { db with
      queue := db.queue.filter (fun j => ¬ (j.user_id = u ∧ j.status = Status.synced)) }

/-- `ImageService.getOrCreateImage(nasaItem)`: look the image row up by its
archive id (kept in the row payload) and return it, else insert a new row.
Both calls are remote: when connectivity is absent the lookup yields no row
and the insert's failure is thrown (`if (error) throw error`), so the
offline call errors. -/
def getOrCreateImage (env : Env) (st : Store) (nasaId : Nat) :
    Except String (Nat × Store) :=
  if env.online then
    match (getTable st "images").find? (fun r => r.payload = nasaId) with
    | some r => .ok (r.rid, st)
    | none =>
      let rid := st.nextRowId
      .ok (rid, setTable { st with nextRowId := rid + 1 } "images"
        (getTable st "images" ++ [⟨rid, nasaId⟩]))
  else .error "Network request failed"

/-- What `AnnotationServiceV2.createAnnotation` hands back: either the row
the online insert returned, or the optimistic `temp-…` response built on the
offline branch. -/
structure AnnotationResult where
  temp : Bool
  image_id : Nat
  user_id : Nat
  payload : Nat
deriving DecidableEq

/-- `AnnotationServiceV2.createAnnotation(nasaItem, annotationData)`: require
a signed-in user; resolve the image record through `getOrCreateImage`
(a remote step, performed before the connectivity branch); then, when
offline, enqueue the insert through `queueOfflineOperation` and return the
optimistic response, and when online insert directly into `annotations`,
throwing any returned error. -/
def createAnnotation (env : Env) (nasaId : Nat) (payload : Nat) (db : DB) :
    DB × Except String AnnotationResult :=
  match env.auth with
  | none => (db, .error "User not authenticated")
  | some u =>
    match getOrCreateImage env db.store nasaId with
    | .error e => (db, .error e)
    | .ok (imageId, st') =>
      let db' : DB := { db with store := st' }
      let rd : RecordData := { id := none, payload := payload }
      if env.online then
        let (st'', err) := applyOp .insert "annotations" rd db'.store
        match err with
        | some e => (db', .error e)
        | none =>
          ({ db' with store := st'' },
            .ok { temp := false, image_id := imageId, user_id := u, payload := payload })
      else
        let (db'', r) := queueOfflineOperation env .insert "annotations" rd db'
        match r with
        | .error e => (db'', .error e)
        | .ok _ =>
          (db'', .ok { temp := true, image_id := imageId, user_id := u, payload := payload })

/-- Pointwise description of what a whole drain does to one queue row `j`:
the first fetched item whose id matches `j` determines the mark `j`
receives (success or failure of that item's replay), and a row matching no
fetched item is untouched.  This is the specification the sequential loop
`drainLoop` is proved to realise. -/
def finalMark (now : Nat) (fail : Nat → Option String) :
    List QueueItem → QueueItem → QueueItem
  | [], j => j
  | it :: rest, j =>
    if j.id = it.id then markItem now it (fail 0) j
    else finalMark now (fun n => fail (n + 1)) rest j

/-- First queue row with the given id, as `.eq('id', i)` selects it. -/
def findItem (q : List QueueItem) (i : Nat) : Option QueueItem :=
  q.find? (fun x => decide (x.id = i))

/-- Status of the queue row with the given id. -/
def statusOf (db : DB) (i : Nat) : Option Status :=
  (findItem db.queue i).map (fun j => j.status)

/-- The queue-touching operations of the subsystem, at the granularity of one
atomic state change each.  The composite `retryFailedItem` appears in a trace
as its `retryReset` followed (when online) by a `drain`; `drain` covers both
`processSyncQueue` proper and the drain `syncNow` performs. -/
inductive SysOp where
  | enq (op : Operation) (tbl : String) (rd : RecordData)
  | drain
  | retryReset (itemId : Nat)
  | clearSynced

/-- One atomic state change of the subsystem. -/
def stepOp (env : Env) (op : SysOp) (db : DB) : DB :=
  match op with
  | .enq o t rd => (queueOfflineOperation env o t rd db).1
  | .drain => (processSyncQueue env db).1
  | .retryReset i => resetItem i db
  | .clearSynced => clearSyncedItems env db

/-- A run of the subsystem from a starting state, each step under its own
environment. -/
def runTrace : List (Env × SysOp) → DB → DB
  | [], db => db
  | (e, o) :: rest, db => runTrace rest (stepOp e o db)

/-- The state before any operation: empty store, empty queue. -/
def initDB : DB := ⟨⟨[], 0⟩, [], 0⟩

/-- Well-formedness of the persistent state: queue-item primary keys are
distinct and below the generator. -/
def WF (db : DB) : Prop :=
  ((db.queue.map (fun x => x.id)).Nodup) ∧ ∀ j ∈ db.queue, j.id < db.nextQueueId

/-- The recorded-failure invariant: a failed row carries at least one attempt
and an error message. -/
def FailedOK (db : DB) : Prop :=
  ∀ j ∈ db.queue, j.status = Status.failed →
    1 ≤ j.attempts ∧ j.error_message ≠ none

/-- A pending queued insert of user 1, used to evaluate theorems on closed
inputs. -/
def itemW : QueueItem :=
  ⟨0, 1, .insert, "annotations", ⟨none, 42⟩, .pending, none, 0, 3, none⟩

/-- A one-item state holding `itemW`. -/
def dbW : DB := ⟨⟨[], 0⟩, [itemW], 1⟩

/-- User 1 signed in, online, every replay call going through. -/
def envW : Env := ⟨some 1, true, 5, fun _ => none⟩

/-- User 1 signed in, online, every replay call failing. -/
def envWfail : Env := ⟨some 1, true, 5, fun _ => some "network timeout"⟩

/-- Nobody signed in. -/
def envNoAuth : Env := ⟨none, true, 5, fun _ => none⟩

/-- User 3 signed in but connectivity absent. -/
def envOffline : Env := ⟨some 3, false, 50, fun _ => none⟩

/-- A pending queued update of user 7 whose payload key is 5. -/
def itemU : QueueItem :=
  ⟨0, 7, .update, "annotations", ⟨some 5, 1⟩, .pending, none, 0, 10, none⟩

/-- A state where `itemU` is queued and the target table holds only the row
with key 6 — the update's target row 5 does not exist. -/
def dbU : DB := ⟨⟨[("annotations", [⟨6, 0⟩])], 9⟩, [itemU], 1⟩

/-- User 7 signed in, online, every replay call going through. -/
def envU : Env := ⟨some 7, true, 100, fun _ => none⟩

/-- The two-step history enqueue-then-drain under `envW`: it leaves `itemW`'s
row synced. -/
def traceW : List (Env × SysOp) :=
  [(envW, .enq .insert "annotations" ⟨none, 42⟩), (envW, .drain)]

/-- A synced queue row of user 1. -/
def itemS : QueueItem :=
  ⟨1, 1, .insert, "annotations", ⟨none, 7⟩, .synced, none, 0, 2, some 4⟩

/-- A state holding one synced and one pending row of user 1. -/
def dbMix : DB := ⟨⟨[], 0⟩, [itemS, itemW], 2⟩

/-- A failed queue row of user 1, with three recorded attempts. -/
def itemF : QueueItem :=
  ⟨2, 1, .update, "annotations", ⟨some 9, 0⟩, .failed, some "boom", 3, 4, none⟩

/-- A state holding only the failed row `itemF`. -/
def dbF : DB := ⟨⟨[], 0⟩, [itemF], 3⟩

theorem markItem_id (now : Nat) (snap : QueueItem) (fail : Option String)
    (j : QueueItem) : (markItem now snap fail j).id = j.id := by
  unfold markItem
  split
  · cases fail <;> rfl
  · rfl

theorem finalMark_id (now : Nat) (fail : Nat → Option String)
    (items : List QueueItem) (j : QueueItem) :
    (finalMark now fail items j).id = j.id := by
  induction items generalizing fail j with
  | nil => rfl
  | cons it rest ih =>
    unfold finalMark
    split
    · exact markItem_id now it (fail 0) j
    · exact ih _ _

theorem markItem_of_ne (now : Nat) (snap : QueueItem) (fail : Option String)
    (j : QueueItem) (h : ¬ j.id = snap.id) : markItem now snap fail j = j := by
  unfold markItem
  exact if_neg h

theorem finalMark_of_not_mem (now : Nat) (fail : Nat → Option String)
    (items : List QueueItem) (j : QueueItem)
    (h : j.id ∉ items.map (fun x => x.id)) : finalMark now fail items j = j := by
  induction items generalizing fail with
  | nil => rfl
  | cons it rest ih =>
    unfold finalMark
    rw [if_neg, ih]
    · intro hm
      exact h (List.mem_map.mpr ⟨_, List.mem_cons_of_mem _ (List.mem_map.mp hm).choose_spec.1,
        (List.mem_map.mp hm).choose_spec.2⟩)
    · intro he
      exact h (by rw [he]; exact List.mem_map.mpr ⟨it, List.mem_cons_self _ _, rfl⟩)

theorem ids_map_of_pres (q : List QueueItem) (f : QueueItem → QueueItem)
    (hf : ∀ j, (f j).id = j.id) :
    (q.map f).map (fun x => x.id) = q.map (fun x => x.id) := by
  rw [List.map_map]
  exact List.map_congr_left fun a _ => hf a

theorem drainLoop_ids (now : Nat) (fail : Nat → Option String)
    (items : List QueueItem) (st : Store) (q : List QueueItem) :
    ((drainLoop now fail items st q).queue).map (fun x => x.id) =
      q.map (fun x => x.id) := by
  induction items generalizing fail st q with
  | nil => rfl
  | cons it rest ih =>
    unfold drainLoop
    cases h0 : fail 0 with
    | none =>
      simp only
      rw [ih, ids_map_of_pres]
      exact markItem_id now it none
    | some msg =>
      simp only
      rw [ih, ids_map_of_pres]
      exact markItem_id now it (some msg)

theorem drainLoop_log (now : Nat) (fail : Nat → Option String)
    (items : List QueueItem) (st : Store) (q : List QueueItem) :
    (drainLoop now fail items st q).log = items.map (fun x => x.id) := by
  induction items generalizing fail st q with
  | nil => rfl
  | cons it rest ih =>
    unfold drainLoop
    cases h0 : fail 0 <;> simp only <;> rw [ih] <;> rfl

theorem drainLoop_counts (now : Nat) (fail : Nat → Option String)
    (items : List QueueItem) (st : Store) (q : List QueueItem) :
    (drainLoop now fail items st q).processed +
      (drainLoop now fail items st q).failed = items.length := by
  induction items generalizing fail st q with
  | nil => rfl
  | cons it rest ih =>
    unfold drainLoop
    cases h0 : fail 0 with
    | none =>
      simp only [List.length_cons]
      have h := ih (fun n => fail (n + 1))
        (applyOp it.operation it.table_name it.record_data st).1
        (q.map (markItem now it none))
      omega
    | some msg =>
      simp only [List.length_cons]
      have h := ih (fun n => fail (n + 1)) st (q.map (markItem now it (some msg)))
      omega

theorem finalMark_cons_step (now : Nat) (fail : Nat → Option String)
    (it : QueueItem) (rest : List QueueItem) (j : QueueItem) (c : Option String)
    (hc : fail 0 = c) (hid : it.id ∉ rest.map (fun x => x.id)) :
    finalMark now (fun n => fail (n + 1)) rest (markItem now it c j) =
      finalMark now fail (it :: rest) j := by
  subst hc
  by_cases hj : j.id = it.id
  · have h1 : (markItem now it (fail 0) j).id ∉ rest.map (fun x => x.id) := by
      rw [markItem_id, hj]; exact hid
    rw [finalMark_of_not_mem now _ rest _ h1]
    unfold finalMark
    rw [if_pos hj]
  · rw [markItem_of_ne now it (fail 0) j hj]
    conv_rhs => unfold finalMark
    rw [if_neg hj]

theorem drainLoop_queue (now : Nat) (fail : Nat → Option String)
    (items : List QueueItem) (st : Store) (q : List QueueItem)
    (h : (items.map (fun x => x.id)).Nodup) :
    (drainLoop now fail items st q).queue = q.map (finalMark now fail items) := by
  induction items generalizing fail st q with
  | nil =>
    simp only [drainLoop, finalMark]
    exact (List.map_id' q).symm
  | cons it rest ih =>
    rw [List.map_cons, List.nodup_cons] at h
    unfold drainLoop
    cases h0 : fail 0 with
    | none =>
      simp only
      rw [ih _ _ _ h.2, List.map_map]
      refine List.map_congr_left fun a _ => ?_
      simp only [Function.comp_apply]
      exact finalMark_cons_step now fail it rest a none h0 h.1
    | some msg =>
      simp only
      rw [ih _ _ _ h.2, List.map_map]
      refine List.map_congr_left fun a _ => ?_
      simp only [Function.comp_apply]
      exact finalMark_cons_step now fail it rest a (some msg) h0 h.1

theorem fetchPending_perm (u : Nat) (q : List QueueItem) :
    (fetchPending u q).Perm
      (q.filter fun it => decide (it.user_id = u ∧ it.status = Status.pending)) :=
  List.perm_insertionSort createdLe _

theorem fetchPending_sorted (u : Nat) (q : List QueueItem) :
    List.Sorted createdLe (fetchPending u q) :=
  List.sorted_insertionSort createdLe _

theorem mem_fetchPending (u : Nat) (q : List QueueItem) (it : QueueItem) :
    it ∈ fetchPending u q ↔ it ∈ q ∧ it.user_id = u ∧ it.status = Status.pending := by
  rw [(fetchPending_perm u q).mem_iff, List.mem_filter, decide_eq_true_iff]

theorem fetchPending_ids_nodup (u : Nat) (q : List QueueItem)
    (h : (q.map (fun x => x.id)).Nodup) :
    ((fetchPending u q).map (fun x => x.id)).Nodup := by
  have hperm := (fetchPending_perm u q).map (fun x => x.id)
  have hsub := (List.filter_sublist
    (p := fun it => decide (it.user_id = u ∧ it.status = Status.pending)) q).map
    (fun x => x.id)
  exact hperm.nodup_iff.mpr (hsub.nodup h)

theorem findItem_map (q : List QueueItem) (f : QueueItem → QueueItem)
    (hf : ∀ j, (f j).id = j.id) (i : Nat) :
    findItem (q.map f) i = (findItem q i).map f := by
  induction q with
  | nil => rfl
  | cons a t ih =>
    unfold findItem at *
    simp only [List.map_cons, List.find?_cons, hf a]
    by_cases ha : a.id = i
    · simp [ha]
    · simp [ha, ih]

theorem findItem_of_mem_nodup (q : List QueueItem) (j : QueueItem)
    (h : (q.map (fun x => x.id)).Nodup) (hj : j ∈ q) :
    findItem q j.id = some j := by
  induction q with
  | nil => exact absurd hj (List.not_mem_nil j)
  | cons a t ih =>
    rw [List.map_cons, List.nodup_cons] at h
    unfold findItem at *
    by_cases ha : a.id = j.id
    · simp only [List.find?_cons, ha, decide_True]
      rcases List.mem_cons.mp hj with h1 | h1
      · rw [h1]
      · exact absurd (ha ▸ List.mem_map.mpr ⟨j, h1, rfl⟩) h.1
    · simp only [List.find?_cons, ha, decide_False]
      rcases List.mem_cons.mp hj with h1 | h1
      · exact absurd (congrArg (fun x => x.id) h1.symm) ha
      · exact ih h.2 h1

theorem findItem_some_id (q : List QueueItem) (i : Nat) (j : QueueItem)
    (h : findItem q i = some j) : j.id = i := by
  unfold findItem at h
  simpa using List.find?_some (p := fun x : QueueItem => decide (x.id = i)) h

theorem findItem_some_mem (q : List QueueItem) (i : Nat) (j : QueueItem)
    (h : findItem q i = some j) : j ∈ q := by
  unfold findItem at h
  exact List.mem_of_find?_eq_some h

theorem findItem_append_some (q l : List QueueItem) (i : Nat) (j : QueueItem)
    (h : findItem q i = some j) : findItem (q ++ l) i = some j := by
  unfold findItem at *
  rw [List.find?_append, h]
  rfl

theorem finalMark_get (now : Nat) (fail : Nat → Option String)
    (items : List QueueItem) (k : Nat) (hk : k < items.length) (j : QueueItem)
    (h : (items.map (fun x => x.id)).Nodup)
    (hj : j.id = (items.get ⟨k, hk⟩).id) :
    finalMark now fail items j = markItem now (items.get ⟨k, hk⟩) (fail k) j := by
  induction items generalizing fail k with
  | nil => exact absurd hk (Nat.not_lt_zero k)
  | cons it rest ih =>
    rw [List.map_cons, List.nodup_cons] at h
    cases k with
    | zero =>
      have hget : (it :: rest).get ⟨0, hk⟩ = it := rfl
      rw [hget] at hj ⊢
      unfold finalMark
      rw [if_pos hj]
    | succ m =>
      have hm : m < rest.length := Nat.lt_of_succ_lt_succ hk
      have hget : (it :: rest).get ⟨m + 1, hk⟩ = rest.get ⟨m, hm⟩ := rfl
      rw [hget] at hj ⊢
      unfold finalMark
      rw [if_neg]
      · exact ih (fun n => fail (n + 1)) m hm h.2 hj
      · intro he
        exact h.1 (he ▸ hj ▸ List.mem_map.mpr ⟨rest.get ⟨m, hm⟩, rest.get_mem _ _, rfl⟩)

theorem wf_initDB : WF initDB :=
  ⟨List.nodup_nil, fun j hj => absurd hj (List.not_mem_nil j)⟩

theorem processSyncQueue_queue_ids (env : Env) (db : DB) :
    ((processSyncQueue env db).1.queue).map (fun x => x.id) =
      db.queue.map (fun x => x.id) := by
  unfold processSyncQueue processSyncQueueFull
  cases env.auth with
  | none => rfl
  | some u => exact drainLoop_ids env.now env.netFail _ db.store db.queue

theorem processSyncQueue_nextQueueId (env : Env) (db : DB) :
    (processSyncQueue env db).1.nextQueueId = db.nextQueueId := by
  unfold processSyncQueue processSyncQueueFull
  cases env.auth <;> rfl

theorem wf_stepOp (env : Env) (op : SysOp) (db : DB) (h : WF db) :
    WF (stepOp env op db) := by
  rcases op with ⟨o, t, rd⟩ | _ | i | _
  · unfold stepOp queueOfflineOperation
    cases env.auth with
    | none => exact h
    | some u =>
      refine ⟨?_, ?_⟩
      · simp only [List.map_append, List.map_cons, List.map_nil]
        rw [List.nodup_append]
        refine ⟨h.1, List.nodup_singleton _, ?_⟩
        intro a ha hb
        rcases List.mem_map.mp ha with ⟨j, hj, hji⟩
        have h2 := h.2 j hj
        simp only [List.mem_singleton] at hb
        omega
      · intro j hj
        rcases List.mem_append.mp hj with h1 | h1
        · exact Nat.lt_succ_of_lt (h.2 j h1)
        · simp only [List.mem_singleton] at h1
          rw [h1]
          exact Nat.lt_succ_self _
  · refine ⟨?_, ?_⟩
    · rw [show (stepOp env .drain db).queue = (processSyncQueue env db).1.queue from rfl,
        processSyncQueue_queue_ids]
      exact h.1
    · intro j hj
      have hid : j.id ∈ (processSyncQueue env db).1.queue.map (fun x => x.id) :=
        List.mem_map.mpr ⟨j, hj, rfl⟩
      rw [processSyncQueue_queue_ids] at hid
      rcases List.mem_map.mp hid with ⟨j0, hj0, hji⟩
      rw [show (stepOp env .drain db).nextQueueId = (processSyncQueue env db).1.nextQueueId
        from rfl, processSyncQueue_nextQueueId]
      rw [← hji]
      exact h.2 j0 hj0
  · refine ⟨?_, ?_⟩
    · rw [show (stepOp env (.retryReset i) db).queue = (resetItem i db).queue from rfl]
      unfold resetItem
      rw [ids_map_of_pres]
      · exact h.1
      · intro j
        by_cases hij : j.id = i <;> simp [hij]
    · intro j hj
      have hn : (stepOp env (SysOp.retryReset i) db).nextQueueId = db.nextQueueId := rfl
      rw [hn]
      unfold stepOp resetItem at hj
      rcases List.mem_map.mp hj with ⟨j0, hj0, hje⟩
      have h2 := h.2 j0 hj0
      rw [← hje]
      by_cases hij : j0.id = i <;> simp [hij] <;> omega
  · unfold stepOp clearSyncedItems
    cases env.auth with
    | none => exact h
    | some u =>
      refine ⟨?_, ?_⟩
      · exact ((List.filter_sublist db.queue).map (fun x => x.id)).nodup h.1
      · intro j hj
        exact h.2 j (List.mem_of_mem_filter hj)

theorem wf_runTrace (tr : List (Env × SysOp)) (db : DB) (h : WF db) :
    WF (runTrace tr db) := by
  induction tr generalizing db with
  | nil => exact h
  | cons p rest ih => exact ih _ (wf_stepOp p.1 p.2 db h)

theorem failedOK_markItem (now : Nat) (snap : QueueItem) (c : Option String)
    (j : QueueItem)
    (h : j.status = Status.failed → 1 ≤ j.attempts ∧ j.error_message ≠ none) :
    (markItem now snap c j).status = Status.failed →
      1 ≤ (markItem now snap c j).attempts ∧
        (markItem now snap c j).error_message ≠ none := by
  unfold markItem
  split
  · cases c with
    | none => intro hs; exact absurd hs (by simp)
    | some msg => intro _; exact ⟨Nat.le_add_left 1 snap.attempts, by simp⟩
  · exact h

theorem failedOK_drainLoop (now : Nat) (fail : Nat → Option String)
    (items : List QueueItem) (st : Store) (q : List QueueItem)
    (h : ∀ j ∈ q, j.status = Status.failed → 1 ≤ j.attempts ∧ j.error_message ≠ none) :
    ∀ j ∈ (drainLoop now fail items st q).queue,
      j.status = Status.failed → 1 ≤ j.attempts ∧ j.error_message ≠ none := by
  induction items generalizing fail st q with
  | nil => exact h
  | cons it rest ih =>
    unfold drainLoop
    cases h0 : fail 0 with
    | none =>
      refine ih _ _ _ ?_
      intro j hj
      rcases List.mem_map.mp hj with ⟨j0, hj0, hje⟩
      rw [← hje]
      exact failedOK_markItem now it none j0 (h j0 hj0)
    | some msg =>
      refine ih _ _ _ ?_
      intro j hj
      rcases List.mem_map.mp hj with ⟨j0, hj0, hje⟩
      rw [← hje]
      exact failedOK_markItem now it (some msg) j0 (h j0 hj0)

theorem failedOK_stepOp (env : Env) (op : SysOp) (db : DB) (h : FailedOK db) :
    FailedOK (stepOp env op db) := by
  rcases op with ⟨o, t, rd⟩ | _ | i | _
  · unfold stepOp queueOfflineOperation
    cases env.auth with
    | none => exact h
    | some u =>
      intro j hj
      rcases List.mem_append.mp hj with h1 | h1
      · exact h j h1
      · simp only [List.mem_singleton] at h1
        rw [h1]
        intro hs
        exact absurd hs (by simp)
  · unfold stepOp processSyncQueue processSyncQueueFull
    cases env.auth with
    | none => exact h
    | some u => exact failedOK_drainLoop env.now env.netFail _ db.store db.queue h
  · intro j hj
    unfold stepOp resetItem at hj
    rcases List.mem_map.mp hj with ⟨j0, hj0, hje⟩
    rw [← hje]
    by_cases hij : j0.id = i
    · simp only [hij, if_pos]
      intro hs
      exact absurd hs (by simp)
    · rw [if_neg hij]
      exact h j0 hj0
  · unfold stepOp clearSyncedItems
    cases env.auth with
    | none => exact h
    | some u =>
      intro j hj
      exact h j (List.mem_of_mem_filter hj)

theorem failedOK_runTrace (tr : List (Env × SysOp)) (db : DB) (h : FailedOK db) :
    FailedOK (runTrace tr db) := by
  induction tr generalizing db with
  | nil => exact h
  | cons p rest ih => exact ih _ (failedOK_stepOp p.1 p.2 db h)

theorem failedOK_initDB : FailedOK initDB :=
  fun j hj => absurd hj (List.not_mem_nil j)

theorem eq_of_mem_nodup_ids (q : List QueueItem) (a b : QueueItem)
    (h : (q.map (fun x => x.id)).Nodup) (ha : a ∈ q) (hb : b ∈ q)
    (hab : a.id = b.id) : a = b := by
  have h1 := findItem_of_mem_nodup q a h ha
  have h2 := findItem_of_mem_nodup q b h hb
  rw [hab] at h1
  rw [h1] at h2
  exact Option.some.inj h2

theorem processSyncQueue_queue (env : Env) (db : DB) (u : Nat)
    (hu : env.auth = some u) (hnd : (db.queue.map (fun x => x.id)).Nodup) :
    (processSyncQueue env db).1.queue =
      db.queue.map (finalMark env.now env.netFail (fetchPending u db.queue)) := by
  unfold processSyncQueue processSyncQueueFull
  rw [hu]
  exact drainLoop_queue env.now env.netFail _ db.store db.queue
    (fetchPending_ids_nodup u db.queue hnd)

theorem processSyncQueue_counts (env : Env) (db : DB) (u : Nat)
    (hu : env.auth = some u) :
    (processSyncQueue env db).2.processed + (processSyncQueue env db).2.failed =
      (fetchPending u db.queue).length := by
  unfold processSyncQueue processSyncQueueFull
  rw [hu]
  exact drainLoop_counts env.now env.netFail _ db.store db.queue

theorem processSyncQueue_log (env : Env) (db : DB) (u : Nat)
    (hu : env.auth = some u) :
    (processSyncQueueFull env db).2.2 =
      (fetchPending u db.queue).map (fun x => x.id) := by
  unfold processSyncQueueFull
  rw [hu]
  exact drainLoop_log env.now env.netFail _ db.store db.queue

theorem drained_item_eq (env : Env) (db : DB) (u : Nat)
    (hu : env.auth = some u) (hnd : (db.queue.map (fun x => x.id)).Nodup)
    (k : Nat) (hk : k < (fetchPending u db.queue).length) :
    findItem (processSyncQueue env db).1.queue
        ((fetchPending u db.queue).get ⟨k, hk⟩).id =
      some (markItem env.now ((fetchPending u db.queue).get ⟨k, hk⟩)
        (env.netFail k) ((fetchPending u db.queue).get ⟨k, hk⟩)) := by
  set it := (fetchPending u db.queue).get ⟨k, hk⟩ with hit
  have hmem : it ∈ fetchPending u db.queue := hit ▸ List.get_mem _ k hk
  have hq : it ∈ db.queue := ((mem_fetchPending u db.queue it).mp hmem).1
  rw [processSyncQueue_queue env db u hu hnd,
    findItem_map db.queue _ (finalMark_id env.now env.netFail _) it.id,
    findItem_of_mem_nodup db.queue it hnd hq, Option.map_some',
    finalMark_get env.now env.netFail _ k hk it
      (fetchPending_ids_nodup u db.queue hnd) rfl]

theorem clearSyncedItems_queue (env : Env) (db : DB) (u : Nat)
    (hu : env.auth = some u) :
    (clearSyncedItems env db).queue =
      db.queue.filter (fun j => ¬ (j.user_id = u ∧ j.status = Status.synced)) := by
  unfold clearSyncedItems
  rw [hu]

theorem clearSyncedItems_store (env : Env) (db : DB) (u : Nat)
    (hu : env.auth = some u) : (clearSyncedItems env db).store = db.store := by
  unfold clearSyncedItems
  rw [hu]

/-- C1: with an authenticated actor, the fetch at the head of
`processSyncQueue` yields exactly the actor's items with status pending — a
permutation of that filter of the queue — ordered by creation time
ascending, and the drain replays precisely those items one at a time in that
order: its replay log is the fetched ids in order. -/
theorem C1_drain_fetch_order (env : Env) (db : DB) (u : Nat)
    (hu : env.auth = some u) :
    (fetchPending u db.queue).Perm
        (db.queue.filter fun it => decide (it.user_id = u ∧ it.status = Status.pending))
    ∧ List.Sorted createdLe (fetchPending u db.queue)
    ∧ (processSyncQueueFull env db).2.2 =
        (fetchPending u db.queue).map (fun x => x.id) :=
  ⟨fetchPending_perm u db.queue, fetchPending_sorted u db.queue,
    processSyncQueue_log env db u hu⟩

/-- Closed instance of C1 at a concrete authenticated state. -/
theorem C1_drain_fetch_order_witness :
    envW.auth = some 1
    ∧ ((fetchPending 1 dbW.queue).Perm
        (dbW.queue.filter fun it => decide (it.user_id = 1 ∧ it.status = Status.pending))
      ∧ List.Sorted createdLe (fetchPending 1 dbW.queue)
      ∧ (processSyncQueueFull envW dbW).2.2 =
          (fetchPending 1 dbW.queue).map (fun x => x.id)) :=
  ⟨rfl, C1_drain_fetch_order envW dbW 1 rfl⟩

/-- C7: with an authenticated actor, `clearSyncedItems` removes every queue
row of that actor whose status is synced, keeps every row that is not an
actor-owned synced row (in particular all pending and failed rows, which it
leaves unchanged), introduces no new rows, and does not touch the backing
store. -/
theorem C7_clear_synced_only (env : Env) (db : DB) (u : Nat)
    (hu : env.auth = some u) :
    (∀ j ∈ db.queue, j.user_id = u → j.status = Status.synced →
        j ∉ (clearSyncedItems env db).queue)
    ∧ (∀ j ∈ db.queue, ¬ (j.user_id = u ∧ j.status = Status.synced) →
        j ∈ (clearSyncedItems env db).queue)
    ∧ (∀ j ∈ (clearSyncedItems env db).queue, j ∈ db.queue)
    ∧ (clearSyncedItems env db).store = db.store := by
  refine ⟨?_, ?_, ?_, clearSyncedItems_store env db u hu⟩
  · intro j hj h1 h2 hmem
    rw [clearSyncedItems_queue env db u hu, List.mem_filter] at hmem
    exact (of_decide_eq_true hmem.2) ⟨h1, h2⟩
  · intro j hj h
    rw [clearSyncedItems_queue env db u hu, List.mem_filter]
    exact ⟨hj, decide_eq_true h⟩
  · intro j hj
    rw [clearSyncedItems_queue env db u hu] at hj
    exact List.mem_of_mem_filter hj

/-- Closed instance of C7 at a state holding one synced and one pending
row. -/
theorem C7_clear_synced_only_witness :
    envW.auth = some 1
    ∧ ((∀ j ∈ dbMix.queue, j.user_id = 1 → j.status = Status.synced →
          j ∉ (clearSyncedItems envW dbMix).queue)
      ∧ (∀ j ∈ dbMix.queue, ¬ (j.user_id = 1 ∧ j.status = Status.synced) →
          j ∈ (clearSyncedItems envW dbMix).queue)
      ∧ (∀ j ∈ (clearSyncedItems envW dbMix).queue, j ∈ dbMix.queue)
      ∧ (clearSyncedItems envW dbMix).store = dbMix.store) :=
  ⟨rfl, C7_clear_synced_only envW dbMix 1 rfl⟩

/-- C8: `queueOfflineOperation` requires an authenticated actor.  Without
one it raises `'User not authenticated'` and leaves the state untouched;
with one it appends exactly one new queue item for that actor with
status pending, attempts 0, no error message, and the current creation
time. -/
theorem C8_enqueue_requires_auth (env : Env) (op : Operation) (tbl : String)
    (rd : RecordData) (db : DB) :
    (env.auth = none →
      queueOfflineOperation env op tbl rd db =
        (db, Except.error "User not authenticated"))
    ∧ ∀ u, env.auth = some u →
      ∃ item, queueOfflineOperation env op tbl rd db =
          ({ db with queue := db.queue ++ [item], nextQueueId := db.nextQueueId + 1 },
            Except.ok item)
        ∧ item.user_id = u ∧ item.status = Status.pending ∧ item.attempts = 0
        ∧ item.error_message = none ∧ item.created_at = env.now := by
  constructor
  · intro h
    unfold queueOfflineOperation
    rw [h]
  · intro u h
    refine ⟨⟨db.nextQueueId, u, op, tbl, rd, .pending, none, 0, env.now, none⟩,
      ?_, rfl, rfl, rfl, rfl, rfl⟩
    unfold queueOfflineOperation
    rw [h]

/-- Closed instance of C8, exercising both the rejected unauthenticated call
and the authenticated append. -/
theorem C8_enqueue_requires_auth_witness :
    (queueOfflineOperation envNoAuth .insert "annotations" ⟨none, 1⟩ dbW =
      (dbW, Except.error "User not authenticated"))
    ∧ ∃ item, queueOfflineOperation envW .insert "annotations" ⟨none, 1⟩ dbW =
        ({ dbW with queue := dbW.queue ++ [item], nextQueueId := dbW.nextQueueId + 1 },
          Except.ok item)
      ∧ item.user_id = 1 ∧ item.status = Status.pending ∧ item.attempts = 0
      ∧ item.error_message = none ∧ item.created_at = envW.now :=
  ⟨(C8_enqueue_requires_auth envNoAuth .insert "annotations" ⟨none, 1⟩ dbW).1 rfl,
    (C8_enqueue_requires_auth envW .insert "annotations" ⟨none, 1⟩ dbW).2 1 rfl⟩

/-- C10: an unauthenticated `processSyncQueue` returns zero counts and leaves
the state untouched, and an offline `syncNow` likewise returns zero counts
without calling the drain. -/
theorem C10_noop_guards (env : Env) (db : DB) :
    (env.auth = none → processSyncQueue env db = (db, ⟨0, 0⟩))
    ∧ (env.online = false → syncNow env db = (db, ⟨0, 0⟩)) := by
  constructor
  · intro h
    unfold processSyncQueue processSyncQueueFull
    rw [h]
  · intro h
    unfold syncNow
    rw [h]
    rfl

/-- Closed instance of C10, at an unauthenticated and at an offline
environment. -/
theorem C10_noop_guards_witness :
    processSyncQueue envNoAuth dbW = (dbW, ⟨0, 0⟩)
    ∧ syncNow envOffline dbW = (dbW, ⟨0, 0⟩) :=
  ⟨(C10_noop_guards envNoAuth dbW).1 rfl, (C10_noop_guards envOffline dbW).2 rfl⟩

/-- C4, evaluated: in `dbU` the queued update's target key 5 is absent from
the target table, the replay call goes through (`envU` reports no transport
failure), and the drain marks the item synced — attempts stay 0 and
error_message stays null, and the store is unchanged.  Zero-row updates
return success and the loop never reads the returned error object, so the
failure the spec expects is never recorded. -/
theorem C4_update_missing_row_marked_synced :
    ((getTable dbU.store "annotations").any fun r => decide (r.rid = 5)) = false
    ∧ processSyncQueue envU dbU =
        ({ dbU with queue :=
            [{ itemU with status := Status.synced, synced_at := some 100 }] },
          ⟨1, 0⟩) :=
  ⟨rfl, rfl⟩

/-- C9, evaluated: an authenticated annotation write attempted while
connectivity is absent fails — `getOrCreateImage` runs against the backend
before the offline branch is reached, its failure propagates to the caller,
and nothing is enqueued. -/
theorem C9_offline_create_fails :
    createAnnotation envOffline 1 42 initDB =
      (initDB, Except.error "Network request failed")
    ∧ ( createAnnotation envOffline 1 42 initDB).1.queue = [] :=
  ⟨rfl, rfl⟩

/-- C2: for every item the drain replays — the k-th fetched item — a replay
that goes through leaves its row synced with `synced_at` set to the current
time, and a replay that fails leaves it failed with the failure detail as
error message and its attempts counter incremented by exactly one; and, over
every history of operations from the initial state, every row whose status
is failed carries attempts at least 1 and a non-null error message. -/
theorem C2_replay_marks_and_failed_invariant :
    (∀ (env : Env) (db : DB) (u k : Nat)
      (hu : env.auth = some u)
      (hnd : (db.queue.map (fun x => x.id)).Nodup)
      (hk : k < (fetchPending u db.queue).length),
      (env.netFail k = none →
        findItem (processSyncQueue env db).1.queue
            ((fetchPending u db.queue).get ⟨k, hk⟩).id =
          some { (fetchPending u db.queue).get ⟨k, hk⟩ with
                  status := Status.synced, synced_at := some env.now })
      ∧ ∀ msg, env.netFail k = some msg →
        findItem (processSyncQueue env db).1.queue
            ((fetchPending u db.queue).get ⟨k, hk⟩).id =
          some { (fetchPending u db.queue).get ⟨k, hk⟩ with
                  status := Status.failed, error_message := some msg,
                  attempts := ((fetchPending u db.queue).get ⟨k, hk⟩).attempts + 1 })
    ∧ ∀ tr : List (Env × SysOp), FailedOK (runTrace tr initDB) := by
  constructor
  · intro env db u k hu hnd hk
    constructor
    · intro hnone
      rw [drained_item_eq env db u hu hnd k hk]
      unfold markItem
      rw [if_pos rfl, hnone]
    · intro msg hmsg
      rw [drained_item_eq env db u hu hnd k hk]
      unfold markItem
      rw [if_pos rfl, hmsg]
  · intro tr
    exact failedOK_runTrace tr initDB failedOK_initDB

/-- Closed instance of C2's success branch: draining `dbW` under `envW`
leaves its single pending item synced at time 5. -/
theorem C2_replay_marks_witness :
    findItem (processSyncQueue envW dbW).1.queue 0 =
      some { itemW with status := Status.synced, synced_at := some 5 } := by
  have h := (C2_replay_marks_and_failed_invariant.1 envW dbW 1 0 rfl (by decide)
    (by decide)).1 rfl
  exact h

/-- C5: the drain is not transactional across items.  The returned counts
cover every fetched pending item exactly once (processed plus failed equals
the number of fetched items), and the final record of the k-th fetched item
depends only on that item's own replay outcome: any environment agreeing on
the actor, the clock and the k-th replay outcome — however the other items
fare — produces the same final record for it. -/
theorem C5_drain_not_transactional (env : Env) (db : DB) (u : Nat)
    (hu : env.auth = some u) (hnd : (db.queue.map (fun x => x.id)).Nodup) :
    (processSyncQueue env db).2.processed + (processSyncQueue env db).2.failed =
      (fetchPending u db.queue).length
    ∧ ∀ (k : Nat) (hk : k < (fetchPending u db.queue).length) (env' : Env),
        env'.auth = some u → env'.now = env.now →
        env'.netFail k = env.netFail k →
        findItem (processSyncQueue env' db).1.queue
            ((fetchPending u db.queue).get ⟨k, hk⟩).id =
          findItem (processSyncQueue env db).1.queue
            ((fetchPending u db.queue).get ⟨k, hk⟩).id := by
  refine ⟨processSyncQueue_counts env db u hu, ?_⟩
  intro k hk env' hu' hnow hfk
  rw [drained_item_eq env db u hu hnd k hk, drained_item_eq env' db u hu' hnd k hk,
    hnow, hfk]

/-- Closed instance of C5: on `dbW` the drain under `envW` covers its one
fetched pending item exactly once in the returned counts. -/
theorem C5_drain_not_transactional_witness :
    (processSyncQueue envW dbW).2.processed + (processSyncQueue envW dbW).2.failed =
      (fetchPending 1 dbW.queue).length :=
  (C5_drain_not_transactional envW dbW 1 rfl (by decide)).1

/-- C6: for a failed item id, the queue update of `retryFailedItem` resets
that row to status pending with attempts 0 and a null error message, and the
operation then hands the reset state to an immediate `syncNow` drain. -/
theorem C6_retry_resets_then_drains (env : Env) (db : DB) (itemId : Nat)
    (j : QueueItem) (hnd : (db.queue.map (fun x => x.id)).Nodup)
    (hj : j ∈ db.queue) (hid : j.id = itemId) (hst : j.status = Status.failed) :
    findItem (resetItem itemId db).queue itemId =
      some { j with status := Status.pending, attempts := 0, error_message := none }
    ∧ retryFailedItem env itemId db = (syncNow env (resetItem itemId db)).1 := by
  refine ⟨?_, rfl⟩
  have hpres : ∀ x : QueueItem,
      ((fun x => if x.id = itemId then
        { x with status := Status.pending, attempts := 0, error_message := none }
      else x) x).id = x.id := by
    intro x
    by_cases h : x.id = itemId <;> simp [h]
  have hfind : findItem db.queue itemId = some j :=
    hid ▸ findItem_of_mem_nodup db.queue j hnd hj
  rw [show (resetItem itemId db).queue = db.queue.map (fun x =>
      if x.id = itemId then
        { x with status := Status.pending, attempts := 0, error_message := none }
      else x) from rfl,
    findItem_map db.queue _ hpres itemId, hfind, Option.map_some', if_pos hid]

/-- Closed instance of C6 at the failed row `itemF`. -/
theorem C6_retry_resets_then_drains_witness :
    findItem (resetItem 2 dbF).queue 2 =
      some { itemF with status := Status.pending, attempts := 0, error_message := none }
    ∧ retryFailedItem envW 2 dbF = (syncNow envW (resetItem 2 dbF)).1 :=
  C6_retry_resets_then_drains envW dbF 2 itemF (by decide) (by decide) rfl rfl

/-- C3, counterexample to the claim as stated: after the history
enqueue-then-drain, queue row 0 has status synced, yet applying
`retryFailedItem` to that id (here under an offline environment, so the
effect of the reset itself is visible) moves the synced row to pending —
the retry update filters on the id alone and never checks the row's
status. -/
theorem C3_synced_row_moved_counterexample :
    statusOf (runTrace traceW initDB) 0 = some Status.synced
    ∧ statusOf (retryFailedItem envOffline 0 (runTrace traceW initDB)) 0 =
        some Status.pending := by
  constructor
  · decide
  · decide

/-- C3 amended: over every reachable state, an atomic operation changes a
row's status only as pending to synced or pending to failed (during a
drain), or to pending via the retry reset aimed at that very row — the
retry reset being able to start not only from failed but also from synced,
since it never checks the row's current status. -/
theorem C3_amended_status_transitions (tr : List (Env × SysOp)) (env : Env) (op : SysOp)
    (i : Nat) (s s' : Status)
    (hs : statusOf (runTrace tr initDB) i = some s)
    (hs' : statusOf (stepOp env op (runTrace tr initDB)) i = some s')
    (hne : s ≠ s') :
    (s = Status.pending ∧ (s' = Status.synced ∨ s' = Status.failed) ∧ op = SysOp.drain)
    ∨ (s' = Status.pending ∧ op = SysOp.retryReset i) := by
  set db := runTrace tr initDB with hdb
  have hwf : WF db := wf_runTrace tr initDB wf_initDB
  unfold statusOf at hs hs'
  cases hfi : findItem db.queue i with
  | none => rw [hfi] at hs; exact absurd hs (by simp)
  | some j =>
    rw [hfi] at hs
    have hjs : j.status = s := by simpa using hs
    have hjq : j ∈ db.queue := findItem_some_mem db.queue i j hfi
    have hji : j.id = i := findItem_some_id db.queue i j hfi
    rcases op with ⟨o, t, rd⟩ | _ | i' | _
    · exfalso
      cases ha : env.auth with
      | none =>
        have hq : (stepOp env (SysOp.enq o t rd) db).queue = db.queue := by
          unfold stepOp queueOfflineOperation
          rw [ha]
        rw [hq, hfi] at hs'
        have h2 : j.status = s' := by simpa using hs'
        exact hne (by rw [← hjs, h2])
      | some u =>
        have hq : (stepOp env (SysOp.enq o t rd) db).queue =
            db.queue ++ [⟨db.nextQueueId, u, o, t, rd, .pending, none, 0, env.now, none⟩] := by
          unfold stepOp queueOfflineOperation
          rw [ha]
        rw [hq, findItem_append_some db.queue _ i j hfi] at hs'
        have h2 : j.status = s' := by simpa using hs'
        exact hne (by rw [← hjs, h2])
    · cases ha : env.auth with
      | none =>
        exfalso
        have hq : (stepOp env SysOp.drain db).queue = db.queue := by
          show (processSyncQueue env db).1.queue = db.queue
          unfold processSyncQueue processSyncQueueFull
          rw [ha]
        rw [hq, hfi] at hs'
        have h2 : j.status = s' := by simpa using hs'
        exact hne (by rw [← hjs, h2])
      | some u =>
        have hq : (stepOp env SysOp.drain db).queue =
            db.queue.map (finalMark env.now env.netFail (fetchPending u db.queue)) :=
          processSyncQueue_queue env db u ha hwf.1
        rw [hq, findItem_map db.queue _ (finalMark_id env.now env.netFail _) i, hfi] at hs'
        have hfj : (finalMark env.now env.netFail (fetchPending u db.queue) j).status = s' := by
          simpa using hs'
        by_cases hmem : j.id ∈ (fetchPending u db.queue).map (fun x => x.id)
        · rcases List.mem_map.mp hmem with ⟨x, hx, hxid⟩
          rcases List.mem_iff_get.mp hx with ⟨⟨k, hk⟩, hget⟩
          have hjid : j.id = ((fetchPending u db.queue).get ⟨k, hk⟩).id := by
            rw [hget, hxid]
          rw [finalMark_get env.now env.netFail _ k hk j
            (fetchPending_ids_nodup u db.queue hwf.1) hjid] at hfj
          have hxq := (mem_fetchPending u db.queue x).mp hx
          have hxj : x = j := eq_of_mem_nodup_ids db.queue x j hwf.1 hxq.1 hjq hxid
          have hsp : s = Status.pending := by
            rw [← hjs, ← hxj]
            exact hxq.2.2
          left
          refine ⟨hsp, ?_, rfl⟩
          unfold markItem at hfj
          rw [if_pos hjid] at hfj
          cases hnf : env.netFail k with
          | none =>
            rw [hnf] at hfj
            have h2 : Status.synced = s' := hfj
            exact Or.inl h2.symm
          | some m =>
            rw [hnf] at hfj
            have h2 : Status.failed = s' := hfj
            exact Or.inr h2.symm
        · exfalso
          rw [finalMark_of_not_mem env.now env.netFail _ j hmem] at hfj
          exact hne (by rw [← hjs, hfj])
    · rw [show (stepOp env (SysOp.retryReset i') db).queue = db.queue.map (fun x =>
          if x.id = i' then
            { x with status := Status.pending, attempts := 0, error_message := none }
          else x) from rfl,
        findItem_map db.queue _ (fun x => by
          by_cases h : x.id = i' <;> simp [h]) i, hfi] at hs'
      have h2 : (if j.id = i' then
          { j with status := Status.pending, attempts := 0, error_message := none }
        else j).status = s' := by simpa using hs'
      by_cases hii : j.id = i'
      · right
        rw [if_pos hii] at h2
        have h3 : Status.pending = s' := h2
        refine ⟨h3.symm, ?_⟩
        rw [show i' = i from by rw [← hii, hji]]
      · exfalso
        rw [if_neg hii] at h2
        exact hne (by rw [← hjs, h2])
    · exfalso
      cases ha : env.auth with
      | none =>
        have hq : (stepOp env SysOp.clearSynced db).queue = db.queue := by
          show (clearSyncedItems env db).queue = db.queue
          unfold clearSyncedItems
          rw [ha]
        rw [hq, hfi] at hs'
        have h2 : j.status = s' := by simpa using hs'
        exact hne (by rw [← hjs, h2])
      | some u =>
        rw [show (stepOp env SysOp.clearSynced db).queue = (clearSyncedItems env db).queue
          from rfl] at hs'
        cases hf2 : findItem (clearSyncedItems env db).queue i with
        | none => rw [hf2] at hs'; exact absurd hs' (by simp)
        | some j2 =>
          rw [hf2] at hs'
          have hj2m : j2 ∈ (clearSyncedItems env db).queue :=
            findItem_some_mem _ i j2 hf2
          rw [clearSyncedItems_queue env db u ha] at hj2m
          have hj2 : j2 ∈ db.queue := List.mem_of_mem_filter hj2m
          have hj2i : j2.id = i := findItem_some_id _ i j2 hf2
          have hje : j2 = j := eq_of_mem_nodup_ids db.queue j2 j hwf.1 hj2 hjq
            (by rw [hj2i, hji])
          have h2 : j.status = s' := by rw [← hje]; simpa using hs'
          exact hne (by rw [← hjs, h2])


/-- Closed instance of the amended C3 at the synced-row retry
transition. -/
theorem C3_amended_status_transitions_witness :
    statusOf (runTrace traceW initDB) 0 = some Status.synced
    ∧ ((Status.synced = Status.pending
          ∧ (Status.pending = Status.synced ∨ Status.pending = Status.failed)
          ∧ SysOp.retryReset 0 = SysOp.drain)
        ∨ (Status.pending = Status.pending ∧ SysOp.retryReset 0 = SysOp.retryReset 0)) :=
  ⟨by decide, C3_amended_status_transitions traceW envW (SysOp.retryReset 0) 0
    Status.synced Status.pending (by decide) (by decide) (by decide)⟩

end StarlightSync
